import Mathlib

/-!
Shallow embedding of `pkg/client/client.go` from fluential/interactsh.

The Go client talks to an interactsh server over HTTP.  We model bytes as
`Nat` (values `< 256`), HTTP requests as structured records, and every
fallible external step (URL parsing, Tink key generation, the HTTP
transport, JSON decoding) as an explicit environment input, so the control
flow of each Go function can be translated branch by branch.
-/

namespace Interactsh

/-- Semantics of `errors.Wrap` from `github.com/pkg/errors`: wrapping a
`nil` error yields `nil`, otherwise the message is prepended.  The client
code relies on this function in every error branch. -/
def errorsWrap (e : Option String) (msg : String) : Option String :=
  match e with
  | none => none
  | some s => some (msg ++ ": " ++ s)

/-- Body of an HTTP request issued by the client.  `register` mirrors
`server.RegisterRequest` (public key bytes, secret key, correlation id);
`deregister` mirrors `server.DeregisterRequest` (correlation id only);
poll requests carry no body. -/
inductive Body where
  | empty : Body
  | register (publicKey : List Nat) (secretKey : String) (correlationID : String) : Body
  | deregister (correlationID : String) : Body
deriving DecidableEq

/-- An HTTP request as the client builds it: method, full URL string, body. -/
structure Request where
  method : String
  url : String
  body : Body
deriving DecidableEq

/-- An HTTP response as far as the client inspects it: only the status code
is branched on (the body is consumed separately by the JSON decoder, which
we model as an environment outcome). -/
structure Response where
  statusCode : Nat
deriving DecidableEq

/-- Model of `url.URL` as the client uses it: `str` is the rendering
`String()` returns and `host` is the `.Host` field. -/
structure ServerURL where
  str : String
  host : String
deriving DecidableEq

/-- State of the `quitChan` channel: `unset` is the nil channel before
`StartPolling` ran, `opened` after `make(chan struct{})`, `closed` after
`close(c.quitChan)`. -/
inductive ChanState where
  | unset : ChanState
  | opened : ChanState
  | closed : ChanState
deriving DecidableEq

/-- A decoded interaction record (`server.Interaction`).  Its fields are
opaque to the client beyond being JSON-decodable, so we keep it abstract
as a raw payload. -/
structure Interaction where
  raw : String
deriving DecidableEq

/-- The `Client` struct of `client.go`.  The Tink decrypter is modelled as
a function from ciphertext bytes to an optional plaintext (`none` is a
decryption error). -/
structure Client where
  correlationID : String
  secretKey : String
  serverURL : ServerURL
  decrypter : List Nat → Option (List Nat)
  quitChan : ChanState
  persistentSession : Bool

/-- The `Options` struct of `client.go`. -/
structure Options where
  serverRawURL : String
  persistentSession : Bool

/-- StartPolling's channel effect: `c.quitChan = make(chan struct{})`.
The spawned goroutine is modelled separately as a trace system below. -/
def StartPolling (c : Client) : Client :=
  { c with quitChan := ChanState.opened }

/-- StopPolling runs `close(c.quitChan)`.  Closing a nil channel or an
already-closed channel panics in Go, which we model as `none`. -/
def StopPolling (c : Client) : Option Client :=
  match c.quitChan with
  | ChanState.unset => none
  | ChanState.closed => none
  | ChanState.opened => some { c with quitChan := ChanState.closed }

/-- Outcomes of the external steps taken by `Close`: whether
`jsoniter.Marshal` and `retryablehttp.NewRequest` succeed, and the result
of `httpClient.Do` (`none` is a transport error, otherwise a response). -/
structure CloseEnv where
  marshalOk : Bool
  newRequestOk : Bool
  doResult : Option Response

/-- Close from `client.go`, translated branch by branch.  Returns the list
of HTTP requests actually issued and the Go error value (`none` = nil).
In the non-200 branch the source returns `errors.Wrap(err, "could not
deregister to server")` where `err` is nil at that point, hence the
`errorsWrap none` call. -/
def Close (c : Client) (env : CloseEnv) : List Request × Option String :=
  if c.persistentSession then ([], none)
  else
    if env.marshalOk = false then
      ([], errorsWrap (some "marshal failure") "could not marshal deregister request")
    else if env.newRequestOk = false then
      ([], errorsWrap (some "request failure") "could not create new request")
    else
      let req : Request :=
        { method := "POST"
          url := c.serverURL.str ++ "/deregister"
          body := Body.deregister c.correlationID }
      match env.doResult with
      | none => ([req], errorsWrap (some "transport failure") "could not make deregister request")
      | some resp =>
        if resp.statusCode ≠ 200 then
          ([req], errorsWrap none "could not deregister to server")
        else ([req], none)

/-- The per-blob loop at the end of `getInteractions`: decrypt each blob,
`continue` on decryption error, parse the plaintext, `continue` on parse
error, otherwise invoke the callback.  The returned list is the sequence
of callback invocations in order. -/
def processData (blobs : List (List Nat)) (decrypt : List Nat → Option (List Nat))
    (parse : List Nat → Option Interaction) : List Interaction :=
  match blobs with
  | [] => []
  | data :: rest =>
    match decrypt data with
    | none => processData rest decrypt parse
    | some plaintext =>
      match parse plaintext with
      | none => processData rest decrypt parse
      | some interaction => interaction :: processData rest decrypt parse

/-- Outcomes of the external steps of one poll tick: whether
`retryablehttp.NewRequest` succeeds, the result of `httpClient.Do`, the
outcome of JSON-decoding the body into `PollResponse.Data`, and the
jsoniter parse of each decrypted plaintext. -/
structure PollEnv where
  newRequestOk : Bool
  doResult : Option Response
  decoded : Option (List (List Nat))
  parse : List Nat → Option Interaction

/-- The poll URL built by `getInteractions` via `strings.Builder`. -/
def pollURL (c : Client) : String :=
  c.serverURL.str ++ "/poll?id=" ++ c.correlationID ++ "&secret=" ++ c.secretKey

/-- getInteractions from `client.go`: build the poll request, return
silently on request-construction failure, transport error, non-200 status
or body-decode failure, otherwise run the decrypt-parse-callback loop.
Returns the requests issued and the callback invocations; the Go function
returns nothing, so no error can reach the caller. -/
def getInteractions (c : Client) (env : PollEnv) : List Request × List Interaction :=
  if env.newRequestOk = false then ([], [])
  else
    let req : Request := { method := "GET", url := pollURL c, body := Body.empty }
    match env.doResult with
    | none => ([req], [])
    | some resp =>
      if resp.statusCode ≠ 200 then ([req], [])
      else
        match env.decoded with
        | none => ([req], [])
        | some blobs => ([req], processData blobs c.decrypter env.parse)

/-- Outcomes of the Tink key-generation and key-export steps inside
`generateRSAKeyPair`: success of `keyset.NewHandle`, `NewHybridDecrypt`,
`khPriv.Public()`, `insecurecleartextkeyset.Write` and `XXX_Marshal`, the
exported public-key bytes, the decrypter and the private key material the
handle holds in memory. -/
structure CryptoOutcome where
  newHandleOk : Bool
  newDecryptOk : Bool
  publicOk : Bool
  writeOk : Bool
  marshalPubOk : Bool
  publicKeyBytes : List Nat
  privateKey : List Nat
  decrypter : List Nat → Option (List Nat)

/-- Outcomes of the external steps of the register HTTP call inside
`generateRSAKeyPair`. -/
structure RegisterEnv where
  marshalOk : Bool
  newRequestOk : Bool
  doResult : Option Response

/-- generateRSAKeyPair from `client.go`: generate the hybrid keypair, set
`c.decrypter`, export the public key, and POST the register request.
Returns the updated client, the HTTP requests issued, and the Go error
value.  As in `Close`, the non-200 branch of the source wraps the nil
`err` from the successful `Do` call, hence `errorsWrap none`. -/
def generateRSAKeyPair (c : Client) (crypto : CryptoOutcome) (reg : RegisterEnv) :
    Client × List Request × Option String :=
  if crypto.newHandleOk = false then
    (c, [], errorsWrap (some "keyset failure") "could not generate encryption keyset")
  else if crypto.newDecryptOk = false then
    (c, [], errorsWrap (some "decrypter failure") "could not create new decrypter")
  else
    let c := { c with decrypter := crypto.decrypter }
    if crypto.publicOk = false then
      (c, [], errorsWrap (some "public failure") "could not get keyset public-key")
    else if crypto.writeOk = false then
      (c, [], errorsWrap (some "write failure") "could not write keyset public key")
    else if crypto.marshalPubOk = false then
      (c, [], errorsWrap (some "marshal failure") "could not marshal public key")
    else
      if reg.marshalOk = false then
        (c, [], errorsWrap (some "marshal failure") "could not marshal register request")
      else if reg.newRequestOk = false then
        (c, [], errorsWrap (some "request failure") "could not create new request")
      else
        let req : Request :=
          { method := "POST"
            url := c.serverURL.str ++ "/register"
            body := Body.register crypto.publicKeyBytes c.secretKey c.correlationID }
        match reg.doResult with
        | none => (c, [req], errorsWrap (some "transport failure") "could not make register request")
        | some resp =>
          if resp.statusCode ≠ 200 then
            (c, [req], errorsWrap none "could not register to server")
          else (c, [req], none)

/-- Outcomes of the external steps of `New`: the result of `url.Parse`
(`none` is a parse error), the fresh `uuid.New().String()` secret, the
fresh `xid.New().String()` correlation id, and the crypto/register
environments consumed by `generateRSAKeyPair`. -/
structure NewEnv where
  parsed : Option ServerURL
  freshSecret : String
  freshCorrelation : String
  crypto : CryptoOutcome
  reg : RegisterEnv

/-- The client literal `New` builds before running `generateRSAKeyPair`:
the parsed server URL, the fresh uuid secret, the fresh xid correlation
id, and the persistence flag from the options. -/
def newClient (options : Options) (env : NewEnv) (parsed : ServerURL) : Client :=
  { serverURL := parsed
    secretKey := env.freshSecret
    correlationID := env.freshCorrelation
    persistentSession := options.persistentSession
    decrypter := fun _ => none
    quitChan := ChanState.unset }

/-- New from `client.go`: parse the server URL, build the client with a
fresh secret and correlation id, run `generateRSAKeyPair` (which also
registers with the server).  Returns the Go pair `(client, err)` together
with the HTTP requests issued along the way. -/
def New (options : Options) (env : NewEnv) : Option Client × List Request × Option String :=
  match env.parsed with
  | none => (none, [], errorsWrap (some "parse failure") "could not parse server URL")
  | some parsed =>
    match generateRSAKeyPair (newClient options env parsed) env.crypto env.reg with
    | (c, reqs, none) => (some c, reqs, none)
    | (_, reqs, some e) => (none, reqs, some e)

/-! ### The identifier generator

`URL()` encodes 8 bytes — big-endian `uint32(time.Now().Unix())` followed
by the big-endian atomically incremented process-wide `objectIDCounter` —
with `zbase32.StdEncoding` and sandwiches the result between the
correlation id and `"." ++ serverURL.Host`.

z-base-32 (the alphabet `ybndrfg8ejkmcpqxot1uwisza345h769`) reads the
input bytes as a most-significant-bit-first bit stream, pads it on the
right with zero bits to a multiple of 5, and maps each 5-bit group to one
alphabet character, producing `ceil(8*len/5)` characters and no padding
characters.  For an input of `len` bytes this is exactly the base-32
digit expansion, most significant digit first, of the big-endian value of
the bytes shifted left by the number of pad bits. -/

/-- The z-base-32 alphabet used by `zbase32.StdEncoding`. -/
def zbase32Alphabet : List Char :=
  String.toList "ybndrfg8ejkmcpqxot1uwisza345h769"

/-- Big-endian digit expansion: `digitsBE base k n` is the list of the
`k` base-`base` digits of `n`, most significant first. -/
def digitsBE (base : Nat) : Nat → Nat → List Nat
  | 0, _ => []
  | k + 1, n => (n / base ^ k % base) :: digitsBE base k (n % base ^ k)

/-- Recompose a most-significant-first digit list into a number. -/
def fromDigitsBE (base : Nat) (l : List Nat) : Nat :=
  l.foldl (fun a d => a * base + d) 0

/-- Big-endian value of a byte list, as read by the z-base-32 bit stream. -/
def bytesToNatBE (bs : List Nat) : Nat :=
  fromDigitsBE 256 bs

/-- Number of characters z-base-32 produces for `len` input bytes:
`ceil(8*len/5)`, with no padding. -/
def zbase32Length (len : Nat) : Nat :=
  (8 * len + 4) / 5

/-- zbase32.StdEncoding.EncodeToString: the most-significant-first base-32
digits of the bit stream of `bs` padded on the right to a multiple of 5
bits, mapped through the z-base-32 alphabet. -/
def zbase32EncodeToString (bs : List Nat) : String :=
  let chars := zbase32Length bs.length
  let padBits := 5 * chars - 8 * bs.length
  String.mk ((digitsBE 32 chars (bytesToNatBE bs * 2 ^ padBits)).map
    (fun d => zbase32Alphabet.getD d 'y'))

/-- binary.BigEndian.PutUint32: the four big-endian bytes of a `uint32`
value.  The Go conversions `uint32(time.Now().Unix())` and the `uint32`
counter reduce their arguments modulo `2^32` before this runs, so the
argument here is already `< 2^32` at every call site. -/
def putUint32 (v : Nat) : List Nat :=
  [v / 2 ^ 24 % 256, v / 2 ^ 16 % 256, v / 2 ^ 8 % 256, v % 256]

/-- URL from `client.go`, with the ambient state made explicit: `time` is
`time.Now().Unix()` (a `Nat`, truncated to `uint32` by the conversion in
the source) and `counter` is the value `atomic.AddUint32` returned for
this call.  The builder writes the correlation id, the encoded 8 bytes, a
dot, an empty string, and the server host. -/
def clientURLString (c : Client) (time counter : Nat) : String :=
  let random := putUint32 (time % 2 ^ 32) ++ putUint32 (counter % 2 ^ 32)
  c.correlationID ++ zbase32EncodeToString random ++ "." ++ "" ++ c.serverURL.host

/-- The value `atomic.AddUint32(&objectIDCounter, 1)` returns for the
`i`-th call (0-based) in the process, starting from counter value `c0`:
increments wrap modulo `2^32`. -/
def counterAt (c0 i : Nat) : Nat :=
  (c0 + i + 1) % 2 ^ 32

/-- The string the `i`-th `URL()` call in the process returns, when that
call is made on client `cl` at Unix time `t i` with initial process-wide
counter value `c0`. -/
def urlAt (cl : Nat → Client) (t : Nat → Nat) (c0 : Nat) (i : Nat) : String :=
  clientURLString (cl i) (t i) (counterAt c0 i)

/-! ### The polling goroutine as a trace system

`StartPolling` spawns a goroutine looping over `select` with two cases:
`<-ticker.C` (run `getInteractions`, so callbacks may fire) and
`<-c.quitChan` (stop the ticker and return).  Go's `select` chooses
uniformly at random among the cases that can proceed, so after the caller
closes `quitChan` the quit case is always ready, but a pending tick keeps
the ticker case ready as well and the goroutine may still take it.  We
model the interleaving as a trace of events validated against the shared
state the two parties can observe. -/

/-- One observable event of the polling interleaving: the goroutine takes
the ticker case and runs `getInteractions` (`tick`), the caller's
`StopPolling` closes the quit channel (`quitClose`), or the goroutine
takes the quit case, stops the ticker and returns (`quitObserved`). -/
inductive PollEvent where
  | tick : PollEvent
  | quitClose : PollEvent
  | quitObserved : PollEvent
deriving DecidableEq

/-- Shared state of the polling interleaving: whether `quitChan` has been
closed and whether the goroutine has returned. -/
structure LoopState where
  quitClosed : Bool
  exited : Bool
deriving DecidableEq

/-- Which events can occur in a state, and the state they lead to.  A
`tick` can occur whenever the goroutine is still looping — also after
`quitChan` was closed, because `select` may pick the ready ticker case
over the ready quit case.  `quitObserved` requires the channel closed and
the goroutine still looping. -/
def loopStep (s : LoopState) (e : PollEvent) : Option LoopState :=
  match e with
  | PollEvent.tick => if s.exited then none else some s
  | PollEvent.quitClose =>
    if s.quitClosed then none else some { s with quitClosed := true }
  | PollEvent.quitObserved =>
    if s.exited then none
    else if s.quitClosed then some { s with exited := true } else none

/-- State right after `StartPolling` returns. -/
def initialLoop : LoopState :=
  { quitClosed := false, exited := false }

/-- Validity of an event trace from a given state. -/
def traceValid (s : LoopState) : List PollEvent → Bool
  | [] => true
  | e :: rest =>
    match loopStep s e with
    | none => false
    | some s2 => traceValid s2 rest

/-- Whether a trace contains a `tick` event. -/
def hasTick : List PollEvent → Bool
  | [] => false
  | PollEvent.tick :: _ => true
  | _ :: rest => hasTick rest

/-- Whether a trace has a callback-producing `tick` somewhere after the
caller's `StopPolling` (the `quitClose` event). -/
def tickAfterStop : List PollEvent → Bool
  | [] => false
  | PollEvent.quitClose :: rest => hasTick rest
  | _ :: rest => tickAfterStop rest

/-- Whether a trace has a `tick` somewhere after the goroutine observed
the quit signal and exited. -/
def tickAfterExit : List PollEvent → Bool
  | [] => false
  | PollEvent.quitObserved :: rest => hasTick rest
  | _ :: rest => tickAfterExit rest

/-! ### Concrete sample data used by witnesses and counterexamples -/

/-- A parsed server URL sample. -/
def sampleURL : ServerURL :=
  { str := "https://interact.sh", host := "interact.sh" }

/-- A sample client after `StartPolling` (quit channel open), with a
20-character xid-style correlation id and a non-persistent session. -/
def sampleClient : Client :=
  { correlationID := "c54hufbe72yg2iy8p7kg"
    secretKey := "11111111-2222-3333-4444-555555555555"
    serverURL := sampleURL
    decrypter := fun _ => none
    quitChan := ChanState.opened
    persistentSession := false }

/-- The sample client after a successful `StopPolling`. -/
def sampleStopped : Client :=
  { sampleClient with quitChan := ChanState.closed }

/-- Crypto environment where every Tink step succeeds. -/
def sampleCrypto : CryptoOutcome :=
  { newHandleOk := true
    newDecryptOk := true
    publicOk := true
    writeOk := true
    marshalPubOk := true
    publicKeyBytes := [10, 20, 30]
    privateKey := [40, 50, 60]
    decrypter := fun _ => none }

/-- Construction environment in which everything succeeds except that the
register HTTP call returns status 500. -/
def register500Env : NewEnv :=
  { parsed := some sampleURL
    freshSecret := "11111111-2222-3333-4444-555555555555"
    freshCorrelation := "c54hufbe72yg2iy8p7kg"
    crypto := sampleCrypto
    reg := { marshalOk := true, newRequestOk := true, doResult := some { statusCode := 500 } } }

/-- Construction environment in which every step succeeds. -/
def registerOkNewEnv : NewEnv :=
  { register500Env with
    reg := { marshalOk := true, newRequestOk := true, doResult := some { statusCode := 200 } } }

/-- Sample options matching `sampleClient`. -/
def sampleOptions : Options :=
  { serverRawURL := "https://interact.sh", persistentSession := false }

/-- Teardown environment where the deregister call returns status 500. -/
def deregister500Env : CloseEnv :=
  { marshalOk := true, newRequestOk := true, doResult := some { statusCode := 500 } }

/-- Teardown environment where the deregister call succeeds with 200. -/
def deregisterOkEnv : CloseEnv :=
  { marshalOk := true, newRequestOk := true, doResult := some { statusCode := 200 } }

/-- Poll-tick environment where the fetch succeeds and the body decodes to
two blobs. -/
def samplePollEnv : PollEnv :=
  { newRequestOk := true
    doResult := some { statusCode := 200 }
    decoded := some [[0], [1]]
    parse := fun _ => none }

/-- Sample decrypter that only decrypts the blob `[1]`. -/
def sampleDecrypt : List Nat → Option (List Nat) :=
  fun b => if b = [1] then some [7] else none

/-- Sample jsoniter parse that only accepts the plaintext `[7]`. -/
def sampleParse : List Nat → Option Interaction :=
  fun p => if p = [7] then some { raw := "dns" } else none

/-! ### Digit-expansion lemmas for the z-base-32 encoding -/

theorem digitsBE_length (base k : Nat) : ∀ n, (digitsBE base k n).length = k := by
  induction k with
  | zero => intro n; rfl
  | succ k ih => intro n; simp [digitsBE, ih]

theorem digitsBE_lt (base : Nat) (hb : 0 < base) :
    ∀ k n d, d ∈ digitsBE base k n → d < base := by
  intro k
  induction k with
  | zero => intro n d hd; simp [digitsBE] at hd
  | succ k ih =>
    intro n d hd
    simp only [digitsBE, List.mem_cons] at hd
    rcases hd with h | h
    · subst h; exact Nat.mod_lt _ hb
    · exact ih _ d h

theorem foldl_digit_shift (base : Nat) (l : List Nat) :
    ∀ a, List.foldl (fun x d => x * base + d) a l = a * base ^ l.length + fromDigitsBE base l := by
  induction l with
  | nil => intro a; simp [fromDigitsBE]
  | cons d l ih =>
    intro a
    have h0 : fromDigitsBE base (d :: l) = d * base ^ l.length + fromDigitsBE base l := by
      show List.foldl _ (0 * base + d) l = _
      rw [ih (0 * base + d)]
      simp
    rw [List.foldl_cons, ih (a * base + d), h0, List.length_cons]
    ring

theorem fromDigitsBE_cons (base d : Nat) (l : List Nat) :
    fromDigitsBE base (d :: l) = d * base ^ l.length + fromDigitsBE base l := by
  show List.foldl _ (0 * base + d) l = _
  rw [foldl_digit_shift]
  simp

theorem fromDigitsBE_append (base : Nat) (l1 l2 : List Nat) :
    fromDigitsBE base (l1 ++ l2) =
      fromDigitsBE base l1 * base ^ l2.length + fromDigitsBE base l2 := by
  show List.foldl _ 0 (l1 ++ l2) = _
  rw [List.foldl_append, foldl_digit_shift]
  rfl

theorem fromDigitsBE_digitsBE (base : Nat) :
    ∀ k n, fromDigitsBE base (digitsBE base k n) = n % base ^ k := by
  intro k
  induction k with
  | zero => intro n; simp [digitsBE, fromDigitsBE, Nat.mod_one]
  | succ k ih =>
    intro n
    rw [show digitsBE base (k + 1) n
        = (n / base ^ k % base) :: digitsBE base k (n % base ^ k) from rfl]
    rw [fromDigitsBE_cons, digitsBE_length, ih,
      Nat.mod_mod_of_dvd _ (dvd_refl _), Nat.mod_pow_succ]
    ring

theorem fromDigitsBE_lt (base : Nat) :
    ∀ l : List Nat, (∀ b ∈ l, b < base) → fromDigitsBE base l < base ^ l.length := by
  intro l
  induction l with
  | nil =>
    intro _
    simp only [fromDigitsBE, List.foldl_nil, List.length_nil, pow_zero]
    omega
  | cons b l ih =>
    intro h
    rw [fromDigitsBE_cons, List.length_cons]
    have hb1 : b + 1 ≤ base := h b (by simp)
    have htail : fromDigitsBE base l < base ^ l.length :=
      ih (fun x hx => h x (by simp [hx]))
    have hstep : (b + 1) * base ^ l.length ≤ base * base ^ l.length :=
      Nat.mul_le_mul_right _ hb1
    calc b * base ^ l.length + fromDigitsBE base l
        < b * base ^ l.length + base ^ l.length := by omega
      _ = (b + 1) * base ^ l.length := by ring
      _ ≤ base * base ^ l.length := hstep
      _ = base ^ (l.length + 1) := by rw [pow_succ]; ring

theorem putUint32_eq_digitsBE (v : Nat) : putUint32 v = digitsBE 256 4 v := by
  simp only [putUint32, digitsBE, List.cons.injEq, and_true]
  norm_num
  omega

theorem putUint32_bytes_lt (v : Nat) : ∀ b ∈ putUint32 v, b < 256 := by
  intro b hb
  simp only [putUint32, List.mem_cons, List.not_mem_nil, or_false] at hb
  rcases hb with h | h | h | h <;> subst h <;> exact Nat.mod_lt _ (by norm_num)

theorem bytesToNatBE_putUint32_append (a b : Nat) :
    bytesToNatBE (putUint32 a ++ putUint32 b) = a % 2 ^ 32 * 2 ^ 32 + b % 2 ^ 32 := by
  rw [bytesToNatBE, putUint32_eq_digitsBE, putUint32_eq_digitsBE, fromDigitsBE_append,
    fromDigitsBE_digitsBE, fromDigitsBE_digitsBE, digitsBE_length]
  norm_num

/-! ### Properties of the z-base-32 alphabet and encoder -/

theorem zbase32Alphabet_getD_inj :
    ∀ d1 < 32, ∀ d2 < 32,
      zbase32Alphabet.getD d1 'y' = zbase32Alphabet.getD d2 'y' → d1 = d2 := by
  decide

theorem zbase32Alphabet_getD_mem :
    ∀ d < 32, zbase32Alphabet.getD d 'y' ∈ zbase32Alphabet := by
  decide

theorem zbase32Alphabet_chars :
    ∀ ch ∈ zbase32Alphabet,
      (Char.isLower ch = true ∨ Char.isDigit ch = true) ∧ ch ≠ '=' := by
  decide

theorem map_alphabet_inj :
    ∀ l1 l2 : List Nat, (∀ d ∈ l1, d < 32) → (∀ d ∈ l2, d < 32) →
      l1.map (fun d => zbase32Alphabet.getD d 'y')
        = l2.map (fun d => zbase32Alphabet.getD d 'y') →
      l1 = l2 := by
  intro l1
  induction l1 with
  | nil =>
    intro l2 _ _ h
    cases l2 with
    | nil => rfl
    | cons d2 l2t => simp at h
  | cons d l ih =>
    intro l2 h1 h2 h
    cases l2 with
    | nil => simp at h
    | cons d2 l2t =>
      simp only [List.map_cons, List.cons.injEq] at h
      have hd : d = d2 :=
        zbase32Alphabet_getD_inj d (h1 d (by simp)) d2 (h2 d2 (by simp)) h.1
      have ht : l = l2t :=
        ih l2t (fun x hx => h1 x (by simp [hx])) (fun x hx => h2 x (by simp [hx])) h.2
      rw [hd, ht]

theorem zbase32EncodeToString_length (bs : List Nat) :
    (zbase32EncodeToString bs).length = zbase32Length bs.length := by
  show (String.mk _).length = _
  simp [String.length, digitsBE_length]

theorem zbase32EncodeToString_mem_alphabet (bs : List Nat) :
    ∀ ch ∈ (zbase32EncodeToString bs).data, ch ∈ zbase32Alphabet := by
  intro ch hch
  simp only [zbase32EncodeToString, List.mem_map] at hch
  obtain ⟨d, hd, rfl⟩ := hch
  exact zbase32Alphabet_getD_mem d (digitsBE_lt 32 (by norm_num) _ _ d hd)

theorem zbase32EncodeToString_inj (bs1 bs2 : List Nat)
    (h1 : ∀ b ∈ bs1, b < 256) (h2 : ∀ b ∈ bs2, b < 256)
    (hlen : bs1.length = bs2.length)
    (henc : zbase32EncodeToString bs1 = zbase32EncodeToString bs2) :
    bytesToNatBE bs1 = bytesToNatBE bs2 := by
  have hdata := congrArg String.data henc
  simp only [zbase32EncodeToString] at hdata
  rw [hlen] at hdata
  have hdig := map_alphabet_inj _ _
    (fun d hd => digitsBE_lt 32 (by norm_num) _ _ d hd)
    (fun d hd => digitsBE_lt 32 (by norm_num) _ _ d hd) hdata
  have hval := congrArg (fromDigitsBE 32) hdig
  rw [fromDigitsBE_digitsBE, fromDigitsBE_digitsBE] at hval
  set c := zbase32Length bs2.length with hc
  set p := 5 * c - 8 * bs2.length with hp
  have hbits : 8 * bs2.length + p = 5 * c := by
    have : 8 * bs2.length ≤ 5 * c := by
      rw [hc]; unfold zbase32Length; omega
    omega
  have hpow : (256 : Nat) ^ bs2.length * 2 ^ p = 32 ^ c := by
    have h256 : (256 : Nat) ^ bs2.length = 2 ^ (8 * bs2.length) := by
      rw [show (256 : Nat) = 2 ^ 8 from rfl, ← pow_mul]
    have h32 : (32 : Nat) ^ c = 2 ^ (5 * c) := by
      rw [show (32 : Nat) = 2 ^ 5 from rfl, ← pow_mul]
    rw [h256, h32, ← pow_add, hbits]
  have hlt1 : bytesToNatBE bs1 * 2 ^ p < 32 ^ c := by
    have := fromDigitsBE_lt 256 bs1 h1
    rw [hlen] at this
    calc bytesToNatBE bs1 * 2 ^ p
        < 256 ^ bs2.length * 2 ^ p :=
          (Nat.mul_lt_mul_right (Nat.pos_pow_of_pos p (by norm_num))).mpr this
      _ = 32 ^ c := hpow
  have hlt2 : bytesToNatBE bs2 * 2 ^ p < 32 ^ c := by
    have := fromDigitsBE_lt 256 bs2 h2
    calc bytesToNatBE bs2 * 2 ^ p
        < 256 ^ bs2.length * 2 ^ p :=
          (Nat.mul_lt_mul_right (Nat.pos_pow_of_pos p (by norm_num))).mpr this
      _ = 32 ^ c := hpow
  rw [Nat.mod_eq_of_lt hlt1, Nat.mod_eq_of_lt hlt2] at hval
  exact Nat.eq_of_mul_eq_mul_right (Nat.pos_pow_of_pos p (by norm_num)) hval

theorem clientURLString_parts (c : Client) (time counter : Nat) :
    clientURLString c time counter =
      c.correlationID
        ++ zbase32EncodeToString (putUint32 (time % 2 ^ 32) ++ putUint32 (counter % 2 ^ 32))
        ++ "." ++ c.serverURL.host := by
  unfold clientURLString
  simp [String.append_empty]

theorem urlBytes_lt (time counter : Nat) :
    ∀ b ∈ putUint32 (time % 2 ^ 32) ++ putUint32 (counter % 2 ^ 32), b < 256 := by
  intro b hb
  rcases List.mem_append.mp hb with h | h
  · exact putUint32_bytes_lt _ b h
  · exact putUint32_bytes_lt _ b h

/-- Equal URL strings force equal counter values, provided the two
correlation ids have the same length (xid correlation ids are always 20
characters).  This is the string-surgery core of the uniqueness claims:
split off the correlation id by length, split off the 13 encoding
characters by length, then decode the 8 bytes. -/
theorem clientURLString_inj (c1 c2 : Client) (t1 t2 n1 n2 : Nat)
    (hlen : c1.correlationID.length = c2.correlationID.length)
    (heq : clientURLString c1 t1 n1 = clientURLString c2 t2 n2) :
    n1 % 2 ^ 32 = n2 % 2 ^ 32 := by
  rw [clientURLString_parts, clientURLString_parts] at heq
  have hdata := congrArg String.data heq
  simp only [String.data_append, List.append_assoc] at hdata
  have hsplit1 := List.append_inj hdata hlen
  have henclen :
      (zbase32EncodeToString (putUint32 (t1 % 2 ^ 32) ++ putUint32 (n1 % 2 ^ 32))).data.length
        = (zbase32EncodeToString (putUint32 (t2 % 2 ^ 32) ++ putUint32 (n2 % 2 ^ 32))).data.length := by
    show (zbase32EncodeToString _).length = (zbase32EncodeToString _).length
    rw [zbase32EncodeToString_length, zbase32EncodeToString_length]
    simp [putUint32]
  have hsplit2 := List.append_inj hsplit1.2 henclen
  have henc : zbase32EncodeToString (putUint32 (t1 % 2 ^ 32) ++ putUint32 (n1 % 2 ^ 32))
      = zbase32EncodeToString (putUint32 (t2 % 2 ^ 32) ++ putUint32 (n2 % 2 ^ 32)) :=
    String.ext hsplit2.1
  have hval := zbase32EncodeToString_inj _ _ (urlBytes_lt t1 n1) (urlBytes_lt t2 n2)
    (by simp [putUint32]) henc
  rw [bytesToNatBE_putUint32_append, bytesToNatBE_putUint32_append] at hval
  have ht1 : t1 % 2 ^ 32 < 2 ^ 32 := Nat.mod_lt _ (by norm_num)
  have ht2 : t2 % 2 ^ 32 < 2 ^ 32 := Nat.mod_lt _ (by norm_num)
  have hn1 : n1 % 2 ^ 32 < 2 ^ 32 := Nat.mod_lt _ (by norm_num)
  have hn2 : n2 % 2 ^ 32 < 2 ^ 32 := Nat.mod_lt _ (by norm_num)
  omega

/-- C3, amended: calls `i` and `j` of any run of at most `2^32` `URL()`
calls in the process — possibly from different clients, all of whose
correlation ids are the 20 characters xid produces — return distinct
strings, because the process-wide counter cannot wrap inside the run. -/
theorem url_calls_pairwise_distinct (cl : Nat → Client) (t : Nat → Nat) (c0 N : Nat)
    (hN : N ≤ 2 ^ 32)
    (hlen : ∀ i, (cl i).correlationID.length = 20)
    (i j : Nat) (hi : i < N) (hj : j < N) (hij : i ≠ j) :
    urlAt cl t c0 i ≠ urlAt cl t c0 j := by
  intro heq
  unfold urlAt at heq
  have hctr := clientURLString_inj (cl i) (cl j) (t i) (t j) (counterAt c0 i) (counterAt c0 j)
    (by rw [hlen i, hlen j]) heq
  unfold counterAt at hctr
  have h32 : (0 : Nat) < 2 ^ 32 := by norm_num
  rw [Nat.mod_mod_of_dvd _ (dvd_refl _), Nat.mod_mod_of_dvd _ (dvd_refl _)] at hctr
  omega

/-- C3, counterexample to the unbounded claim: with the process-wide
counter starting at 0, the first call and call number `2^32` (the 32-bit
counter having wrapped) made by the same client in the same second return
the identical string. -/
theorem url_collision_after_counter_wrap :
    urlAt (fun _ => sampleClient) (fun _ => 1700000000) 0 0
      = urlAt (fun _ => sampleClient) (fun _ => 1700000000) 0 (2 ^ 32)
    ∧ (0 : Nat) ≠ 2 ^ 32 := by
  constructor
  · show clientURLString sampleClient 1700000000 (counterAt 0 0)
      = clientURLString sampleClient 1700000000 (counterAt 0 (2 ^ 32))
    norm_num [counterAt]
  · norm_num

theorem sampleClient_corr_len : sampleClient.correlationID.length = 20 := by
  decide

/-- C3 witness: two concrete calls of the same client in the same second
give distinct identifiers. -/
theorem url_distinct_witness :
    urlAt (fun _ => sampleClient) (fun _ => 1700000000) 0 0
      ≠ urlAt (fun _ => sampleClient) (fun _ => 1700000000) 0 1 :=
  url_calls_pairwise_distinct (fun _ => sampleClient) (fun _ => 1700000000) 0 2
    (by norm_num) (fun _ => sampleClient_corr_len) 0 1 (by norm_num) (by norm_num) (by norm_num)

/-- C7: every identifier returned by `URL` is
`{correlationID}{encoding(8 bytes)}.{serverHost}`, where the 8 encoded
bytes carry the big-endian 4-byte time followed by the big-endian 4-byte
counter (their big-endian value is `time*2^32 + counter`, both reduced to
32 bits), and the encoding emits exactly 13 characters — no padding —
drawn from a 32-character alphabet of lowercase letters and digits, valid
in a DNS label. -/
theorem url_identifier_format (c : Client) (time counter : Nat) :
    ∃ bytes : List Nat,
      bytes.length = 8 ∧
      (∀ b ∈ bytes, b < 256) ∧
      bytesToNatBE bytes = time % 2 ^ 32 * 2 ^ 32 + counter % 2 ^ 32 ∧
      clientURLString c time counter =
        c.correlationID ++ zbase32EncodeToString bytes ++ "." ++ c.serverURL.host ∧
      (zbase32EncodeToString bytes).length = 13 ∧
      ∀ ch ∈ (zbase32EncodeToString bytes).data,
        ch ∈ zbase32Alphabet ∧ (Char.isLower ch = true ∨ Char.isDigit ch = true) ∧ ch ≠ '=' := by
  refine ⟨putUint32 (time % 2 ^ 32) ++ putUint32 (counter % 2 ^ 32),
    by simp [putUint32], urlBytes_lt time counter, ?_, clientURLString_parts c time counter, ?_, ?_⟩
  · rw [bytesToNatBE_putUint32_append]
    rw [Nat.mod_mod_of_dvd _ (dvd_refl _), Nat.mod_mod_of_dvd _ (dvd_refl _)]
  · rw [zbase32EncodeToString_length]
    simp [putUint32, zbase32Length]
  · intro ch hch
    have hmem := zbase32EncodeToString_mem_alphabet _ ch hch
    exact ⟨hmem, zbase32Alphabet_chars ch hmem⟩

/-! ### Trace lemmas for the polling loop -/

theorem hasTick_false_of_exited :
    ∀ (tr : List PollEvent) (s : LoopState), s.exited = true → traceValid s tr = true →
      hasTick tr = false := by
  intro tr
  induction tr with
  | nil => intro s _ _; rfl
  | cons e rest ih =>
    intro s hs hv
    cases e with
    | tick => simp [traceValid, loopStep, hs] at hv
    | quitClose =>
      by_cases hq : s.quitClosed
      · simp [traceValid, loopStep, hq] at hv
      · simp only [traceValid, loopStep, hq, Bool.false_eq_true, if_false] at hv
        have := ih { s with quitClosed := true } (by simp [hs]) hv
        simpa [hasTick] using this
    | quitObserved => simp [traceValid, loopStep, hs] at hv

theorem tickAfterExit_false_of_valid :
    ∀ (tr : List PollEvent) (s : LoopState), traceValid s tr = true →
      tickAfterExit tr = false := by
  intro tr
  induction tr with
  | nil => intro s _; rfl
  | cons e rest ih =>
    intro s hv
    cases e with
    | tick =>
      by_cases hs : s.exited
      · simp [traceValid, loopStep, hs] at hv
      · simp only [traceValid, loopStep, hs, if_false, Bool.false_eq_true] at hv
        simpa [tickAfterExit] using ih s hv
    | quitClose =>
      by_cases hq : s.quitClosed
      · simp [traceValid, loopStep, hq] at hv
      · simp only [traceValid, loopStep, hq, if_false, Bool.false_eq_true] at hv
        simpa [tickAfterExit] using ih _ hv
    | quitObserved =>
      by_cases hs : s.exited
      · simp [traceValid, loopStep, hs] at hv
      · by_cases hq : s.quitClosed
        · simp only [traceValid, loopStep, hs, hq, if_false, if_true,
            Bool.false_eq_true] at hv
          have := hasTick_false_of_exited rest _ (by simp) hv
          simpa [tickAfterExit] using this
        · simp [traceValid, loopStep, hs, hq] at hv

/-- C5, amended: in every valid interleaving of the polling goroutine and
the caller, no callback-producing tick occurs after the goroutine has
observed the closed quit channel and exited.  (The claim as stated —
nothing after `StopPolling` returns — fails: see the counterexample,
where a concurrently-pending tick is selected after the close.) -/
theorem no_callback_after_quit_observed (tr : List PollEvent)
    (h : traceValid initialLoop tr = true) :
    tickAfterExit tr = false :=
  tickAfterExit_false_of_valid tr initialLoop h

/-- C5 witness: a concrete valid trace through stop and exit has no tick
after the exit. -/
theorem no_callback_witness :
    tickAfterExit [PollEvent.tick, PollEvent.quitClose, PollEvent.quitObserved] = false :=
  no_callback_after_quit_observed [PollEvent.tick, PollEvent.quitClose, PollEvent.quitObserved]
    (by decide)

/-- C5 counterexample: the trace close-then-tick is a valid interleaving
(`select` may pick the ready ticker case over the ready quit case), so a
callback batch can still run after `StopPolling` has returned. -/
theorem callback_after_stop_possible :
    traceValid initialLoop [PollEvent.quitClose, PollEvent.tick] = true
    ∧ tickAfterStop [PollEvent.quitClose, PollEvent.tick] = true := by
  decide

/-- C4: the decoder handles every ciphertext blob independently — a blob
is dropped exactly when its decryption or its parse fails, each surviving
blob produces exactly one callback, and callbacks keep the order of the
response; in particular a batch of one corrupt and one valid blob fires
the callback exactly once, for the valid item, in its position. -/
theorem decoder_per_item (decrypt : List Nat → Option (List Nat))
    (parse : List Nat → Option Interaction) :
    (∀ blobs, processData blobs decrypt parse
      = blobs.filterMap (fun b => (decrypt b).bind parse)) ∧
    (∀ corrupt valid p i, decrypt corrupt = none → decrypt valid = some p →
      parse p = some i →
      processData [corrupt, valid] decrypt parse = [i]
        ∧ processData [valid, corrupt] decrypt parse = [i]) := by
  have hmain : ∀ blobs, processData blobs decrypt parse
      = blobs.filterMap (fun b => (decrypt b).bind parse) := by
    intro blobs
    induction blobs with
    | nil => rfl
    | cons b rest ih =>
      cases hd : decrypt b with
      | none => simp [processData, hd, List.filterMap_cons, ih]
      | some p =>
        cases hp : parse p with
        | none => simp [processData, hd, hp, List.filterMap_cons, ih]
        | some i => simp [processData, hd, hp, List.filterMap_cons, ih]
  refine ⟨hmain, ?_⟩
  intro corrupt valid p i hc hv hp
  constructor <;> simp [hmain, List.filterMap_cons, hc, hv, hp]

/-- C4 witness: a concrete batch of one corrupt and one valid blob fires
the callback once, for the valid item. -/
theorem decoder_witness :
    processData [[0], [1]] sampleDecrypt sampleParse = [{ raw := "dns" }] :=
  ((decoder_per_item sampleDecrypt sampleParse).2 [0] [1] [7] { raw := "dns" }
    rfl rfl rfl).1

/-- C10: `StopPolling` on a client whose `StartPolling` never ran closes
the nil `quitChan` and panics; a second `StopPolling` closes the
already-closed channel and panics.  Neither is a guarded no-op or a
returned error. -/
theorem stop_polling_panics (c : Client) :
    (c.quitChan = ChanState.unset → StopPolling c = none) ∧
    (∀ c2, StopPolling c = some c2 → StopPolling c2 = none) := by
  constructor
  · intro h; simp [StopPolling, h]
  · intro c2 h
    cases hq : c.quitChan with
    | unset => simp [StopPolling, hq] at h
    | closed => simp [StopPolling, hq] at h
    | opened =>
      simp only [StopPolling, hq, Option.some.injEq] at h
      rw [← h]
      rfl

/-- C10 witness: both panicking calls, evaluated. -/
theorem stop_polling_witness :
    StopPolling { sampleClient with quitChan := ChanState.unset } = none
    ∧ StopPolling sampleStopped = none :=
  ⟨(stop_polling_panics { sampleClient with quitChan := ChanState.unset }).1 rfl,
   (stop_polling_panics sampleClient).2 sampleStopped rfl⟩

/-- C1, evaluated at the failing input: with a parsable server URL,
successful key generation and export, and a register call that reaches
the server but receives HTTP 500, `New` returns a client and a nil error
— the non-200 branch wraps the nil error from the successful `Do` call
and `errors.Wrap(nil, msg)` is nil.  The register request was issued
(exactly one request) and did not succeed, yet construction succeeds,
refuting the only-if direction of the claim. -/
theorem new_succeeds_on_non200_register :
    (New sampleOptions register500Env).1.isSome = true
    ∧ (New sampleOptions register500Env).2.2 = none
    ∧ (New sampleOptions register500Env).2.1.length = 1
    ∧ register500Env.reg.doResult = some { statusCode := 500 } :=
  ⟨rfl, rfl, rfl, rfl⟩

/-- C2, evaluated at the failing input: on a non-persistent client whose
deregister call reaches the server but receives HTTP 500, `Close`
returns nil — the branch wraps the nil error from the successful `Do`
call — even though the deregister request was issued and did not
succeed. -/
theorem close_nil_error_on_non200 :
    (Close sampleClient deregister500Env).2 = none
    ∧ (Close sampleClient deregister500Env).1.length = 1 :=
  ⟨rfl, rfl⟩

/-- C6: `Close` on a persistent-session client issues no deregister call
and returns nil; on a non-persistent client — given that the marshal and
request-construction steps succeed, which for this fixed request shape
they always do — it issues exactly one POST `/deregister` whose body
carries the client's correlation id. -/
theorem close_deregister_exactly_once (c : Client) (env : CloseEnv)
    (hm : env.marshalOk = true) (hr : env.newRequestOk = true) :
    (c.persistentSession = true → Close c env = ([], none)) ∧
    (c.persistentSession = false →
      (Close c env).1 =
        [{ method := "POST", url := c.serverURL.str ++ "/deregister",
           body := Body.deregister c.correlationID }]) := by
  constructor
  · intro h; simp [Close, h]
  · intro h
    simp only [Close, h, hm, hr, Bool.true_eq_false, if_false]
    cases env.doResult with
    | none => rfl
    | some resp =>
      by_cases hs : resp.statusCode = 200
      · simp [hs]
      · simp [hs]

/-- C6 witness: the two cases evaluated on concrete clients. -/
theorem close_deregister_witness :
    Close { sampleClient with persistentSession := true } deregisterOkEnv = ([], none)
    ∧ (Close sampleClient deregisterOkEnv).1 =
      [{ method := "POST", url := "https://interact.sh" ++ "/deregister",
         body := Body.deregister "c54hufbe72yg2iy8p7kg" }] :=
  ⟨(close_deregister_exactly_once { sampleClient with persistentSession := true }
      deregisterOkEnv rfl rfl).1 rfl,
   (close_deregister_exactly_once sampleClient deregisterOkEnv rfl rfl).2 rfl⟩

/-- C8: whenever the poll request can be built, the tick issues exactly
one GET to `/poll?id={correlationID}&secret={secretKey}`; on request-
construction failure, transport error, non-200 status, or body-decode
failure, the tick produces zero callbacks.  `getInteractions` has no
error output at all (the Go function returns nothing), so no failure is
surfaced to the caller. -/
theorem poll_tick_best_effort (c : Client) (env : PollEnv) :
    (env.newRequestOk = true →
      (getInteractions c env).1 =
        [{ method := "GET"
           url := c.serverURL.str ++ "/poll?id=" ++ c.correlationID
             ++ "&secret=" ++ c.secretKey
           body := Body.empty }]) ∧
    (env.newRequestOk = false →
      (getInteractions c env).1 = [] ∧ (getInteractions c env).2 = []) ∧
    ((env.doResult = none
        ∨ (∃ r, env.doResult = some r ∧ r.statusCode ≠ 200)
        ∨ env.decoded = none) →
      (getInteractions c env).2 = []) := by
  obtain ⟨rok, dres, dec, prs⟩ := env
  refine ⟨?_, ?_, ?_⟩
  · intro h
    subst h
    simp only [getInteractions, Bool.true_eq_false, if_false]
    cases dres with
    | none => rfl
    | some resp =>
      by_cases hs : resp.statusCode = 200
      · simp only [hs, ne_eq, not_true_eq_false, if_false, if_neg]
        cases dec <;> simp [pollURL]
      · simp [pollURL, hs]
  · intro h
    subst h
    simp [getInteractions]
  · intro h
    cases rok with
    | false => simp [getInteractions]
    | true =>
      rcases h with h | ⟨r, hr, hs⟩ | h
      · subst h; simp [getInteractions]
      · subst hr
        simp [getInteractions, hs]
      · subst h
        simp only [getInteractions, Bool.true_eq_false, if_false]
        cases dres with
        | none => rfl
        | some resp =>
          by_cases hs : resp.statusCode = 200 <;> simp [hs]

/-- C8 witness: a transport-error tick fires no callback, and a healthy
tick issues the poll request with the correlation id and secret in the
query string. -/
theorem poll_tick_witness :
    (getInteractions sampleClient
      { newRequestOk := true, doResult := none, decoded := none,
        parse := fun _ => none }).2 = []
    ∧ (getInteractions sampleClient samplePollEnv).1 =
      [{ method := "GET"
         url := "https://interact.sh" ++ "/poll?id=" ++ "c54hufbe72yg2iy8p7kg"
           ++ "&secret=" ++ "11111111-2222-3333-4444-555555555555"
         body := Body.empty }] :=
  ⟨(poll_tick_best_effort sampleClient
      { newRequestOk := true, doResult := none, decoded := none,
        parse := fun _ => none }).2.2 (Or.inl rfl),
   (poll_tick_best_effort sampleClient samplePollEnv).1 rfl⟩

/-! ### Identity immutability and key privacy -/

theorem generateRSAKeyPair_preserves (c : Client) (crypto : CryptoOutcome)
    (reg : RegisterEnv) :
    (generateRSAKeyPair c crypto reg).1.correlationID = c.correlationID
    ∧ (generateRSAKeyPair c crypto reg).1.secretKey = c.secretKey := by
  simp only [generateRSAKeyPair]
  (repeat' split) <;> exact ⟨rfl, rfl⟩

theorem generateRSAKeyPair_requests (c : Client) (crypto : CryptoOutcome)
    (reg : RegisterEnv) :
    ∀ req ∈ (generateRSAKeyPair c crypto reg).2.1,
      req.body = Body.register crypto.publicKeyBytes c.secretKey c.correlationID := by
  intro req hreq
  simp only [generateRSAKeyPair] at hreq
  repeat' split at hreq
  all_goals simp_all

theorem New_client_fields (opts : Options) (nenv : NewEnv) :
    ∀ cl, (New opts nenv).1 = some cl →
      cl.correlationID = nenv.freshCorrelation ∧ cl.secretKey = nenv.freshSecret := by
  intro cl h
  cases hp : nenv.parsed with
  | none => simp [New, hp] at h
  | some parsed =>
    have hpres := generateRSAKeyPair_preserves (newClient opts nenv parsed) nenv.crypto nenv.reg
    rcases hgen : generateRSAKeyPair (newClient opts nenv parsed) nenv.crypto nenv.reg
      with ⟨c3, reqs, err⟩
    rw [hgen] at hpres
    cases err with
    | none =>
      simp only [New, hp, hgen, Option.some.injEq] at h
      subst h
      exact hpres
    | some e => simp [New, hp, hgen] at h

theorem New_register_request_shape (opts : Options) (nenv : NewEnv) :
    ∀ req ∈ (New opts nenv).2.1,
      req.body = Body.register nenv.crypto.publicKeyBytes nenv.freshSecret
        nenv.freshCorrelation := by
  intro req hreq
  cases hp : nenv.parsed with
  | none => simp [New, hp] at hreq
  | some parsed =>
    have hbody := generateRSAKeyPair_requests (newClient opts nenv parsed) nenv.crypto nenv.reg
    rcases hgen : generateRSAKeyPair (newClient opts nenv parsed) nenv.crypto nenv.reg
      with ⟨c3, reqs, err⟩
    rw [hgen] at hbody
    cases err with
    | none =>
      simp only [New, hp, hgen] at hreq
      exact hbody req hreq
    | some e =>
      simp only [New, hp, hgen] at hreq
      exact hbody req hreq

theorem getInteractions_request_bodies (c : Client) (env : PollEnv) :
    ∀ req ∈ (getInteractions c env).1, req.body = Body.empty := by
  intro req hreq
  simp only [getInteractions] at hreq
  repeat' split at hreq
  all_goals simp_all

theorem Close_request_bodies (c : Client) (env : CloseEnv) :
    ∀ req ∈ (Close c env).1, req.body = Body.deregister c.correlationID := by
  intro req hreq
  simp only [Close] at hreq
  repeat' split at hreq
  all_goals simp_all

theorem New_requests_no_private_key (opts : Options) (nenv : NewEnv) (pk : List Nat) :
    (New opts { nenv with crypto := { nenv.crypto with privateKey := pk } }).2.1
      = (New opts nenv).2.1 := by
  obtain ⟨parsed, fs, fc, crypto, reg⟩ := nenv
  obtain ⟨h1, h2, h3, h4, h5, pub, priv, dec⟩ := crypto
  rfl

/-- C9: the correlation id and secret key are set at construction from
the fresh xid/uuid values and no later operation changes them; the only
request bodies ever sent are the register triple (exported public key,
secret, correlation id), the deregister correlation id, and empty poll
bodies; and the requests `New` issues are unchanged under any change of
the private key material, so the private key crosses no request. -/
theorem identity_set_once_and_private (c : Client) (cenv : CloseEnv) (penv : PollEnv)
    (opts : Options) (nenv : NewEnv) :
    ((StartPolling c).correlationID = c.correlationID
      ∧ (StartPolling c).secretKey = c.secretKey) ∧
    (∀ c2, StopPolling c = some c2 →
      c2.correlationID = c.correlationID ∧ c2.secretKey = c.secretKey) ∧
    (∀ cl, (New opts nenv).1 = some cl →
      cl.correlationID = nenv.freshCorrelation ∧ cl.secretKey = nenv.freshSecret) ∧
    (∀ req ∈ (New opts nenv).2.1,
      req.body = Body.register nenv.crypto.publicKeyBytes nenv.freshSecret
        nenv.freshCorrelation) ∧
    (∀ req ∈ (getInteractions c penv).1, req.body = Body.empty) ∧
    (∀ req ∈ (Close c cenv).1, req.body = Body.deregister c.correlationID) ∧
    (∀ pk, (New opts { nenv with crypto := { nenv.crypto with privateKey := pk } }).2.1
      = (New opts nenv).2.1) := by
  refine ⟨⟨rfl, rfl⟩, ?_, New_client_fields opts nenv, New_register_request_shape opts nenv,
    getInteractions_request_bodies c penv, Close_request_bodies c cenv,
    fun pk => New_requests_no_private_key opts nenv pk⟩
  intro c2 h
  cases hq : c.quitChan with
  | unset => simp [StopPolling, hq] at h
  | closed => simp [StopPolling, hq] at h
  | opened =>
    simp only [StopPolling, hq, Option.some.injEq] at h
    rw [← h]
    exact ⟨rfl, rfl⟩

/-- C9 witness: evaluated on a concrete client and environments. -/
theorem identity_witness :
    (StartPolling sampleClient).correlationID = sampleClient.correlationID
    ∧ sampleStopped.correlationID = sampleClient.correlationID
    ∧ sampleStopped.secretKey = sampleClient.secretKey :=
  ⟨(identity_set_once_and_private sampleClient deregisterOkEnv samplePollEnv
      sampleOptions registerOkNewEnv).1.1,
   (identity_set_once_and_private sampleClient deregisterOkEnv samplePollEnv
      sampleOptions registerOkNewEnv).2.1 sampleStopped rfl⟩

end Interactsh
